import Mathlib

/-!
Shallow embedding of the reservoir-relayer order feed synchronization code:
the Seaport order parser (`src/utils/seaport.ts`), the paginated fetchers
(`fetchOrders`, `fetchAllOrders`, `fetchListingsBySlug`,
`fetchCollectionOffers`, `refreshCollectionsToFetchOffers`) and the realtime
sync worker.  External collaborators (the SDK order constructors, the HTTP
feed, Postgres, Redis, the bullmq runtime) are modelled as explicit oracles
or state threaded through the functions; JavaScript exceptions are modelled
with `Except`.
-/

set_option maxHeartbeats 1000000

namespace Relayer

/-- JavaScript `String.prototype.toLowerCase` (character-wise model). -/
def toLowerCase (s : String) : String := String.mk (s.data.map Char.toLower)

/-- One entry of `protocol_data.parameters.offer` (only the fields the code
reads are modelled). -/
structure OfferItem where
  token : String
  deriving Repr, DecidableEq

/-- `protocol_data.parameters` of a feed record (opaque fields kept as
strings / numbers). -/
structure OrderParameters where
  offerer : String
  zone : String
  zoneHash : String
  conduitKey : String
  salt : String
  consideration : List String
  offer : List OfferItem
  counter : Nat
  orderType : Nat
  startTime : Nat
  endTime : Nat
  deriving Repr, DecidableEq

/-- `protocol_data` of a feed record. -/
structure ProtocolData where
  parameters : OrderParameters
  signature : String
  deriving Repr, DecidableEq

/-- A raw order record as received from the upstream feed
(`SeaportOrder` in `src/utils/seaport.ts`). -/
structure SeaportOrder where
  created_date : String
  order_hash : String
  /-- `maker.address` -/
  maker_address : String
  protocol_address : String
  protocol_data : ProtocolData
  client_signature : String
  deriving Repr, DecidableEq

/-- The order component object built inside `parseSeaportOrder` before
delegating to the SDK constructor (`counter` is stringified, an empty
`signature` becomes `undefined`, modelled as `none`). -/
structure OrderComponent where
  endTime : Nat
  startTime : Nat
  consideration : List String
  offer : List OfferItem
  conduitKey : String
  salt : String
  zone : String
  zoneHash : String
  offerer : String
  counter : String
  orderType : Nat
  signature : Option String
  deriving Repr, DecidableEq

/-- Field extraction performed at the top of `Seaport.parseSeaportOrder`. -/
def buildOrderComponent (seaportOrder : SeaportOrder) : OrderComponent :=
  { endTime := seaportOrder.protocol_data.parameters.endTime
    startTime := seaportOrder.protocol_data.parameters.startTime
    consideration := seaportOrder.protocol_data.parameters.consideration
    offer := seaportOrder.protocol_data.parameters.offer
    conduitKey := seaportOrder.protocol_data.parameters.conduitKey
    salt := seaportOrder.protocol_data.parameters.salt
    zone := seaportOrder.protocol_data.parameters.zone
    zoneHash := seaportOrder.protocol_data.parameters.zoneHash
    offerer := seaportOrder.protocol_data.parameters.offerer
    counter := toString seaportOrder.protocol_data.parameters.counter
    orderType := seaportOrder.protocol_data.parameters.orderType
    signature :=
      if seaportOrder.protocol_data.signature = "" then none
      else some seaportOrder.protocol_data.signature }

/-- The result of `order.getInfo()` on an SDK order, when defined. -/
structure OrderInfo where
  contract : String
  deriving Repr, DecidableEq

/-- A typed SDK order (`Sdk.SeaportV14.Order` / `Sdk.SeaportV15.Order`):
its `params` and the result of `getInfo()` (`none` when `getInfo()`
returns `undefined`). -/
structure SdkOrder where
  params : OrderComponent
  info : Option OrderInfo
  deriving Repr, DecidableEq

/-- The protocol version kinds the relayer recognizes. -/
inductive ProtocolKind where
  | seaportV14
  | seaportV15
  deriving Repr, DecidableEq

/-- A successfully parsed order, as produced by `parseSeaportOrder`. -/
structure ParsedOrder where
  kind : ProtocolKind
  order : SdkOrder
  deriving Repr, DecidableEq

/-- Oracle for the external SDK: the per-chain exchange addresses
(`Sdk.SeaportV14.Addresses.Exchange[config.chainId]`, `none` when the table
has no entry for the chain) and the two order constructors, which may throw
(`Except.error`). -/
structure SdkEnv where
  v14Address : Option String
  v15Address : Option String
  construct14 : OrderComponent → Except String SdkOrder
  construct15 : OrderComponent → Except String SdkOrder

/-- The body of the `try` block of `Seaport.parseSeaportOrder`: build the
order component, exact-match `protocol_address` against the two known
per-chain addresses, and delegate construction to the SDK.  An `Except.error`
is an uncaught JavaScript exception escaping the block. -/
def parseSeaportOrderBody (env : SdkEnv) (seaportOrder : SeaportOrder) :
    Except String (Option ParsedOrder) := do
  let orderComponent := buildOrderComponent seaportOrder
  if env.v14Address = some seaportOrder.protocol_address then
    let order ← env.construct14 orderComponent
    pure (some { kind := ProtocolKind.seaportV14, order := order })
  else if env.v15Address = some seaportOrder.protocol_address then
    let order ← env.construct15 orderComponent
    pure (some { kind := ProtocolKind.seaportV15, order := order })
  else
    pure none

/-- `Seaport.parseSeaportOrder` as its callers observe it: the `catch`
clause logs and converts any exception into `undefined` (`none`). -/
def parseSeaportOrder (env : SdkEnv) (seaportOrder : SeaportOrder) :
    Option ParsedOrder :=
  match parseSeaportOrderBody env seaportOrder with
  | Except.ok r => r
  | Except.error _ => none

/-- `Seaport.parseSeaportOrder` in exception-transparent form: what the
caller would have to handle.  The `catch` makes every outcome `Except.ok`. -/
def parseSeaportOrderCaught (env : SdkEnv) (seaportOrder : SeaportOrder) :
    Except String (Option ParsedOrder) :=
  match parseSeaportOrderBody env seaportOrder with
  | Except.ok r => Except.ok r
  | Except.error _ => Except.ok none

/-- An entry pushed onto `parsedOrders` and later enqueued downstream:
`{ kind: parsed.kind, data: parsed.order.params }`. -/
structure QueuedOrder where
  kind : ProtocolKind
  data : OrderComponent
  deriving Repr, DecidableEq

/-- A row pushed onto `values` and bulk-inserted into `orders_v23`
(`created_at` keeps the source string; `new Date(...)` is an external,
injective conversion). -/
structure Row where
  hash : String
  target : String
  maker : String
  created_at : String
  data : ProtocolData
  source : String
  deriving Repr, DecidableEq

/-- The JavaScript expression
`order.protocol_data.parameters.offer[0].token`: indexing `offer[0]` on an
empty list yields `undefined` and reading `.token` on it throws. -/
def fallbackOfferToken (order : SeaportOrder) : Except String String :=
  match order.protocol_data.parameters.offer with
  | [] => Except.error "TypeError: cannot read token of undefined"
  | item :: _ => Except.ok item.token

/-- The entry pushed onto `parsedOrders` (when parsing succeeded). -/
def queuedOrderOf (env : SdkEnv) (order : SeaportOrder) : Option QueuedOrder :=
  (parseSeaportOrder env order).map
    (fun p => { kind := p.kind, data := p.order.params })

/-- The `target` expression of the `handleOrder` closure shared (textually
identical) by `fetchOrders`, `fetchListingsBySlug` and
`fetchCollectionOffers`:
`parsed?.order.getInfo()?.contract.toLowerCase() ||
 order.protocol_data.parameters.offer[0].token.toLowerCase()`.
The fallback is taken when the optional chain is `undefined` (parse failed
or `getInfo()` returned `undefined`) or when the lowered contract is the
empty string (JS falsiness of `""`); the fallback itself throws on an empty
offer list. -/
def rowTarget (env : SdkEnv) (order : SeaportOrder) : Except String String :=
  match parseSeaportOrder env order with
  | some p =>
    match p.order.info with
    | some info =>
      if toLowerCase info.contract = "" then (fallbackOfferToken order).map toLowerCase
      else Except.ok (toLowerCase info.contract)
    | none => (fallbackOfferToken order).map toLowerCase
  | none => (fallbackOfferToken order).map toLowerCase

/-- The `handleOrder` closure shared (textually identical) by `fetchOrders`,
`fetchListingsBySlug` and `fetchCollectionOffers`: parse the record, push a
queued order when parsing succeeded, and push the row (its `hash` and
`maker` lowercased). -/
def handleOrder (env : SdkEnv) (order : SeaportOrder) :
    Except String (Option QueuedOrder × Row) :=
  match rowTarget env order with
  | Except.error e => Except.error e
  | Except.ok target =>
    Except.ok (queuedOrderOf env order,
      { hash := toLowerCase order.order_hash
        target := target
        maker := toLowerCase order.maker_address
        created_at := order.created_date
        data := order.protocol_data
        source := "opensea" })

/-- The `target` expression of `fetchAllOrders.handleOrder`:
`(parsed?.order.getInfo()?.contract ||
  order.protocol_data.parameters.offer[0].token).toLowerCase()` —
here `toLowerCase` is applied once to the whole `( ... || ... )`, so the
truthiness test is on the raw contract string; this returns the raw string
before that final lowering. -/
def rowTargetAllOrders (env : SdkEnv) (order : SeaportOrder) :
    Except String String :=
  match parseSeaportOrder env order with
  | some p =>
    match p.order.info with
    | some info =>
      if info.contract = "" then fallbackOfferToken order
      else Except.ok info.contract
    | none => fallbackOfferToken order
  | none => fallbackOfferToken order

/-- The `handleOrder` closure of `fetchAllOrders`.  It differs from the
other three in that `hash` is stored as received (NOT lowercased). -/
def handleOrderAllOrders (env : SdkEnv) (order : SeaportOrder) :
    Except String (Option QueuedOrder × Row) :=
  match rowTargetAllOrders env order with
  | Except.error e => Except.error e
  | Except.ok rawTarget =>
    Except.ok (queuedOrderOf env order,
      { hash := order.order_hash
        target := toLowerCase rawTarget
        maker := toLowerCase order.maker_address
        created_at := order.created_date
        data := order.protocol_data
        source := "opensea" })

/-- The per-page fan-out: run `handleOrder` over every record of the page
(the `pLimit(20)` pool joined by `Promise.all` is a page-level barrier; the
accumulated `parsedOrders` and `values` lists are modelled in record order)
and collect the queued orders and the rows.  A thrown exception in any
handler rejects the whole `Promise.all`. -/
def processOrders (env : SdkEnv) :
    List SeaportOrder → Except String (List QueuedOrder × List Row)
  | [] => Except.ok ([], [])
  | order :: rest =>
    match handleOrder env order with
    | Except.error e => Except.error e
    | Except.ok qr =>
      match processOrders env rest with
      | Except.error e => Except.error e
      | Except.ok acc => Except.ok (qr.1.toList ++ acc.1, qr.2 :: acc.2)

/-- Whether the table already holds a row with the given hash (the unique
key the `ON CONFLICT` clause is keyed on). -/
def hasHash (db : List Row) (h : String) : Bool :=
  db.any (fun x => x.hash = h)

/-- One row of the bulk `INSERT ... ON CONFLICT DO NOTHING RETURNING 1`:
a row whose `hash` already exists in the table is silently skipped (never
updated) and not counted; otherwise it is appended and counted. -/
def insertRow (db : List Row) (r : Row) : List Row × Nat :=
  if hasHash db r.hash then (db, 0) else (db ++ [r], 1)

/-- The bulk insert over a batch: rows are inserted in order, each seeing
the effect of the previous ones; returns the new table and the count of
rows actually inserted (the length of the `RETURNING 1` result). -/
def insertRows (db : List Row) : List Row → List Row × Nat
  | [] => (db, 0)
  | r :: rest =>
    let step := insertRow db r
    let acc := insertRows step.1 rest
    (acc.1, step.2 + acc.2)

/-- Outcome of one `axios.request` against the feed, as an oracle indexed
by the number of requests issued so far: a page of records plus the next
cursor, an HTTP 429 rejection, or any other failure. -/
inductive FetchResult where
  | success (orders : List SeaportOrder) (next : Option String)
  | rateLimited
  | failure (e : String)

/-- The mutable state of `fetchOrders`: the cursor, the running total, the
`done` flag, the number of HTTP requests issued, the `orders_v23` table,
the batches handed to `addToRelayOrdersQueue`, and the `setTimeout` delays
awaited (ms). -/
structure FetchState where
  cursor : Option String
  total : Nat
  done : Bool
  reqCount : Nat
  db : List Row
  enqueued : List (List QueuedOrder)
  delays : List Nat
  deriving Repr, DecidableEq

/-- The state at the top of `fetchOrders`, over an existing table. -/
def initFetchState (db : List Row) : FetchState :=
  { cursor := none, total := 0, done := false, reqCount := 0,
    db := db, enqueued := [], delays := [] }

/-- The state after the successful-response part of one `fetchOrders`
iteration: update cursor / total, bulk-insert the non-empty batch (setting
`done` when zero rows were newly inserted), and enqueue the non-empty list
of parsed orders. -/
def stepSuccessState (s : FetchState) (orders : List SeaportOrder)
    (next : Option String) (parsedOrders : List QueuedOrder)
    (values : List Row) : FetchState :=
  let s1 : FetchState :=
    { s with cursor := next, reqCount := s.reqCount + 1,
             total := s.total + orders.length }
  let s2 : FetchState :=
    if values.isEmpty then s1
    else
      let result := insertRows s1.db values
      { s1 with db := result.1,
                done := if result.2 = 0 then true else s1.done }
  if parsedOrders.isEmpty then s2
  else { s2 with enqueued := s2.enqueued ++ [parsedOrders] }

/-- One iteration of the `while` loop of `fetchOrders`: issue the request;
on 429 with an established cursor wait 5000 ms and retry the same cursor,
on 429 without a cursor or on any other failure re-throw; on success update
the cursor and total, fan out `handleOrder`, bulk-insert the rows and
enqueue the parsed orders (via `stepSuccessState`). -/
def stepFetch (env : SdkEnv) (feed : Nat → FetchResult) (s : FetchState) :
    Except String FetchState :=
  match feed s.reqCount with
  | FetchResult.rateLimited =>
    if s.cursor.isSome then
      Except.ok { s with reqCount := s.reqCount + 1, delays := s.delays ++ [5000] }
    else
      Except.error "429"
  | FetchResult.failure e => Except.error e
  | FetchResult.success orders next =>
    match processOrders env orders with
    | Except.error e => Except.error e
    | Except.ok processed =>
      Except.ok (stepSuccessState s orders next processed.1 processed.2)

/-- The `while (!done && (details?.maxOrders ? total < details.maxOrders :
true))` guard. -/
def loopGuard (maxOrders : Option Nat) (s : FetchState) : Bool :=
  !s.done && (match maxOrders with | some m => s.total < m | none => true)

/-- The `fetchOrders` loop, fuel-bounded: while the guard holds, run one
iteration and recurse; an uncaught exception aborts the run. -/
def runFetch (env : SdkEnv) (feed : Nat → FetchResult) (maxOrders : Option Nat) :
    Nat → FetchState → Except String FetchState
  | 0, s => Except.ok s
  | Nat.succ fuel, s =>
    if loopGuard maxOrders s then
      match stepFetch env feed s with
      | Except.error e => Except.error e
      | Except.ok s' => runFetch env feed maxOrders fuel s'
    else Except.ok s

/-- Outcome of `fetchOrdersByPageToken("sell", pageToken)` as observed by
the realtime job: the new page token (first component of the returned
tuple), or a thrown exception. -/
inductive FetchOutcome where
  | ok (newPageToken : String)
  | throws (e : String)

/-- Reading the `coinbase-sync-last` key in the realtime job: a null cache
value is replaced by the empty string. -/
def startToken (cache : Option String) : String := cache.getD ""

/-- The realtime worker's job processor (the `async (job) => ...` body):
read the persisted page token, run one fetch pass, persist the new token
when it is non-empty (JS truthiness).  The whole body is wrapped in
`try/catch`; the catch logs and does not re-throw, so the processor always
returns normally.  Result: the cache afterwards, and whether the processor
returned without throwing. -/
def realtimeJobProcessor (fetch : String → FetchOutcome) (cache : Option String) :
    Option String × Bool :=
  let pageTokenCache := startToken cache
  match fetch pageTokenCache with
  | FetchOutcome.throws _ => (cache, true)
  | FetchOutcome.ok newPageToken =>
    if newPageToken = "" then (cache, true)
    else (some newPageToken, true)

/-- An observable side effect of the worker's event handlers. -/
inductive WorkerEvent where
  | releasedLock (name : String) (suppressReacquire : Bool)
  deriving Repr, DecidableEq

/-- One scheduled invocation of the realtime worker.  The bullmq runtime is
external: a processor that returns without throwing completes the job
(successfully) and fires the `completed` handler exactly once; that handler
calls `releaseLock("coinbase-sync-lock", false)`. -/
def runRealtimeWorkerJob (fetch : String → FetchOutcome) (cache : Option String) :
    Option String × List WorkerEvent :=
  let r := realtimeJobProcessor fetch cache
  if r.2 then (r.1, [WorkerEvent.releasedLock "coinbase-sync-lock" false])
  else (r.1, [])

/-- A collection as returned by the ranking source (only the fields the
refresher reads). -/
structure Collection where
  id : String
  primaryContract : String
  deriving Repr, DecidableEq

/-- One page of the `/collections/v5?limit=20&sortBy=30DayVolume` source. -/
structure RankPage where
  collections : List Collection
  continuation : Option String
  deriving Repr, DecidableEq

/-- `MAX_FETCH_OFFERS_COLLECTIONS` constant. -/
def MAX_FETCH_OFFERS_COLLECTIONS : Nat := 1000

/-- The pagination `for` loop of `refreshCollectionsToFetchOffers`: up to
`Math.ceil(MAX_FETCH_OFFERS_COLLECTIONS / 20)` iterations, each requesting
one page (the oracle is indexed by request number), appending its
collections, and breaking when a page returns fewer than 20.  Returns the
number of pages requested and the accumulated collections. -/
def fetchRankedLoop (rank : Nat → RankPage) :
    Nat → Nat → List Collection → Nat × List Collection
  | 0, i, acc => (i, acc)
  | Nat.succ n, i, acc =>
    let page := rank i
    let acc' := acc ++ page.collections
    if page.collections.length < 20 then (i + 1, acc')
    else fetchRankedLoop rank n (i + 1) acc'

/-- The full pagination phase, started with the loop bound
`Math.ceil(MAX_FETCH_OFFERS_COLLECTIONS / 20)`. -/
def fetchRankedCollections (rank : Nat → RankPage) : Nat × List Collection :=
  fetchRankedLoop rank ((MAX_FETCH_OFFERS_COLLECTIONS + 20 - 1) / 20) 0 []

/-- A probe recorded for one collection (`_.sample` of an empty token list
is `undefined`, modelled as `none`). -/
structure FetchOffersCollection where
  collection : String
  contract : String
  tokenId : Option String
  deriving Repr, DecidableEq

/-- The per-collection sampling loop of `refreshCollectionsToFetchOffers`:
for each collection, fetch up to 50 token ids and pick one at random
(oracle `sample`, `Except.error` modelling a thrown request error).  A
failure is caught and logged and the loop proceeds with the remaining
collections. -/
def sampleProbes (sample : Collection → Except String (Option String))
    (collections : List Collection) : List FetchOffersCollection :=
  collections.foldl (fun acc c =>
    match sample c with
    | Except.error _ => acc
    | Except.ok tokenId =>
      acc ++ [{ collection := c.id, contract := c.primaryContract,
                tokenId := tokenId }]) []

/-- `refreshCollectionsToFetchOffers`: paginate the ranking source, then
build the probe set (the wholesale replacement of the stored set is the
external `fetchOffersCollections.add(..., true)`).  Returns the number of
ranking pages requested and the probe set. -/
def refreshCollectionsToFetchOffers (rank : Nat → RankPage)
    (sample : Collection → Except String (Option String)) :
    Nat × List FetchOffersCollection :=
  let fetched := fetchRankedCollections rank
  (fetched.1, sampleProbes sample fetched.2)

/-! ### Concrete fixtures used by witnesses and counterexamples -/

/-- A minimal parameter block with one offer item. -/
def params0 : OrderParameters :=
  { offerer := "", zone := "", zoneHash := "", conduitKey := "", salt := "",
    consideration := [], offer := [{ token := "0xTOKEN" }], counter := 0,
    orderType := 0, startTime := 0, endTime := 0 }

/-- A feed record with an uppercase-lettered hash and one offer item. -/
def record0 : SeaportOrder :=
  { created_date := "2023-01-01T00:00:00", order_hash := "0xAB",
    maker_address := "0xMAKER", protocol_address := "0xproto",
    protocol_data := { parameters := params0, signature := "" },
    client_signature := "" }

/-- A second record, with an unrecognized protocol address. -/
def record1 : SeaportOrder :=
  { created_date := "2023-01-02T00:00:00", order_hash := "0xEF",
    maker_address := "0xM2", protocol_address := "0xother",
    protocol_data := { parameters := { params0 with offer := [{ token := "0xT2" }] },
                       signature := "" },
    client_signature := "" }

/-- A record with an EMPTY offer list (and an address no env matches). -/
def recordEmptyOffer : SeaportOrder :=
  { created_date := "2023-01-03T00:00:00", order_hash := "0xcd",
    maker_address := "0xm3", protocol_address := "0xother",
    protocol_data := { parameters := { params0 with offer := [] },
                       signature := "" },
    client_signature := "" }

/-- SDK oracle with no address table entries for the chain. -/
def envNoMatch : SdkEnv :=
  { v14Address := none, v15Address := none,
    construct14 := fun _ => Except.error "unreachable",
    construct15 := fun _ => Except.error "unreachable" }

/-- SDK oracle where `record0`'s protocol address is the v1.5 exchange and
construction succeeds with contract info. -/
def envOk15 : SdkEnv :=
  { v14Address := some "0xv14", v15Address := some "0xproto",
    construct14 := fun _ => Except.error "unreachable",
    construct15 := fun c =>
      Except.ok { params := c, info := some { contract := "0xCONTRACT" } } }

/-- SDK oracle where `record0`'s protocol address is the v1.4 exchange and
construction throws. -/
def envThrow14 : SdkEnv :=
  { v14Address := some "0xproto", v15Address := none,
    construct14 := fun _ => Except.error "construction failed",
    construct15 := fun _ => Except.error "unreachable" }

/-- The row `handleOrder` builds from `record0` when parsing fails. -/
def row0 : Row :=
  { hash := "0xab", target := "0xtoken", maker := "0xmaker",
    created_at := "2023-01-01T00:00:00",
    data := record0.protocol_data, source := "opensea" }

/-! ### Parser lemmas -/

/-- With no address match the try-block body returns `undefined` without
calling a constructor (so it cannot throw). -/
theorem parseSeaportOrderBody_noMatch (env : SdkEnv) (o : SeaportOrder)
    (h14 : env.v14Address ≠ some o.protocol_address)
    (h15 : env.v15Address ≠ some o.protocol_address) :
    parseSeaportOrderBody env o = Except.ok none := by
  simp [parseSeaportOrderBody, h14, h15, pure, Except.pure]

/-- With no address match `parseSeaportOrder` returns absent. -/
theorem parseSeaportOrder_noMatch (env : SdkEnv) (o : SeaportOrder)
    (h14 : env.v14Address ≠ some o.protocol_address)
    (h15 : env.v15Address ≠ some o.protocol_address) :
    parseSeaportOrder env o = none := by
  simp [parseSeaportOrder, parseSeaportOrderBody_noMatch env o h14 h15]

/-- A v1.4 address match whose construction throws yields absent. -/
theorem parseSeaportOrder_throw14 (env : SdkEnv) (o : SeaportOrder) (e : String)
    (h14 : env.v14Address = some o.protocol_address)
    (he : env.construct14 (buildOrderComponent o) = Except.error e) :
    parseSeaportOrder env o = none := by
  simp [parseSeaportOrder, parseSeaportOrderBody, h14, he]

/-- A v1.5 address match (v1.4 not matching) whose construction throws
yields absent. -/
theorem parseSeaportOrder_throw15 (env : SdkEnv) (o : SeaportOrder) (e : String)
    (h14 : env.v14Address ≠ some o.protocol_address)
    (h15 : env.v15Address = some o.protocol_address)
    (he : env.construct15 (buildOrderComponent o) = Except.error e) :
    parseSeaportOrder env o = none := by
  simp [parseSeaportOrder, parseSeaportOrderBody, h14, h15, he]

/-- C5: `parseSeaportOrder` returns absent when the record's protocol
address matches neither known per-chain protocol-version address, returns
absent when the delegated order construction raises, and never propagates
an exception to its caller (every outcome of the caught form is `ok`). -/
theorem parseSeaportOrder_absent_on_failure (env : SdkEnv) (o : SeaportOrder) :
    (∃ r, parseSeaportOrderCaught env o = Except.ok r)
    ∧ (env.v14Address ≠ some o.protocol_address →
        env.v15Address ≠ some o.protocol_address →
        parseSeaportOrder env o = none)
    ∧ (∀ e, env.v14Address = some o.protocol_address →
        env.construct14 (buildOrderComponent o) = Except.error e →
        parseSeaportOrder env o = none)
    ∧ (∀ e, env.v14Address ≠ some o.protocol_address →
        env.v15Address = some o.protocol_address →
        env.construct15 (buildOrderComponent o) = Except.error e →
        parseSeaportOrder env o = none) := by
  refine ⟨?_, ?_, ?_, ?_⟩
  · cases h : parseSeaportOrderBody env o with
    | ok r => exact ⟨r, by simp [parseSeaportOrderCaught, h]⟩
    | error e => exact ⟨none, by simp [parseSeaportOrderCaught, h]⟩
  · exact parseSeaportOrder_noMatch env o
  · intro e h14 he
    exact parseSeaportOrder_throw14 env o e h14 he
  · intro e h14 h15 he
    exact parseSeaportOrder_throw15 env o e h14 h15 he

/-- Witness for C5: the three failure modes at concrete inputs. -/
theorem parseSeaportOrder_absent_on_failure_witness :
    parseSeaportOrder envNoMatch record0 = none
    ∧ parseSeaportOrder envThrow14 record0 = none
    ∧ parseSeaportOrder envOk15 record1 = none := by
  refine ⟨?_, ?_, ?_⟩
  · exact (parseSeaportOrder_absent_on_failure envNoMatch record0).2.1
      (by simp [envNoMatch]) (by simp [envNoMatch])
  · exact (parseSeaportOrder_absent_on_failure envThrow14 record0).2.2.1
      "construction failed" (by simp [envThrow14, record0]) rfl
  · exact (parseSeaportOrder_absent_on_failure envOk15 record1).2.1
      (by simp [envOk15, record1]) (by simp [envOk15, record1])

/-! ### Hash lowercasing (C3) -/

/-- Counterexample for C3: `fetchAllOrders.handleOrder` persists the hash
as received, so on a record whose feed hash contains uppercase letters the
persisted `hash` differs from the lowercased order hash. -/
theorem fetchAllOrders_hash_not_lowercased_cex :
    (∃ q row, handleOrderAllOrders envNoMatch record0 = Except.ok (q, row)
      ∧ row.hash = "0xAB")
    ∧ toLowerCase record0.order_hash = "0xab"
    ∧ ("0xAB" : String) ≠ "0xab" := by
  exact ⟨⟨none, _, rfl, rfl⟩, rfl, by decide⟩

/-- C3 (amended): the handlers of `fetchOrders`, `fetchListingsBySlug` and
`fetchCollectionOffers` persist the lowercased order hash; the handler of
`fetchAllOrders` persists the order hash exactly as received (not
lowercased). -/
theorem persisted_hash_lowercasing (env : SdkEnv) (order : SeaportOrder) :
    (∀ q row, handleOrder env order = Except.ok (q, row) →
      row.hash = toLowerCase order.order_hash)
    ∧ (∀ q row, handleOrderAllOrders env order = Except.ok (q, row) →
      row.hash = order.order_hash) := by
  constructor
  · intro q row h
    unfold handleOrder at h
    cases ht : rowTarget env order with
    | error e =>
      rw [ht] at h
      simp at h
    | ok t =>
      rw [ht] at h
      simp only [Except.ok.injEq, Prod.mk.injEq] at h
      rw [← h.2]
  · intro q row h
    unfold handleOrderAllOrders at h
    cases ht : rowTargetAllOrders env order with
    | error e =>
      rw [ht] at h
      simp at h
    | ok t =>
      rw [ht] at h
      simp only [Except.ok.injEq, Prod.mk.injEq] at h
      rw [← h.2]

/-- Witness for C3's amended theorem at a concrete record. -/
theorem persisted_hash_lowercasing_witness :
    row0.hash = toLowerCase record0.order_hash :=
  (persisted_hash_lowercasing envNoMatch record0).1 none row0 rfl

/-! ### Dedup insert (C4) -/

/-- The bulk insert only appends: the prior table contents are untouched. -/
theorem insertRows_append (rows : List Row) :
    ∀ db : List Row, ∃ tail, (insertRows db rows).1 = db ++ tail := by
  induction rows with
  | nil => exact fun db => ⟨[], by simp [insertRows]⟩
  | cons r rest ih =>
    intro db
    by_cases h : hasHash db r.hash
    · obtain ⟨tail, ht⟩ := ih db
      exact ⟨tail, by simp [insertRows, insertRow, h, ht]⟩
    · obtain ⟨tail, ht⟩ := ih (db ++ [r])
      exact ⟨[r] ++ tail, by simp [insertRows, insertRow, h, ht]⟩

/-- Hash presence over a concatenated table. -/
theorem hasHash_append (db tail : List Row) (h : String) :
    hasHash (db ++ tail) h = (hasHash db h || hasHash tail h) := by
  simp [hasHash, List.any_append]

/-- A hash present before a bulk insert is still present afterwards. -/
theorem hasHash_mono (rows : List Row) (db : List Row) (h : String)
    (hh : hasHash db h = true) : hasHash (insertRows db rows).1 h = true := by
  obtain ⟨tail, ht⟩ := insertRows_append rows db
  simp [ht, hasHash_append, hh]

/-- After a bulk insert, every hash of the batch is present in the table. -/
theorem insertRows_hasHash_all (rows : List Row) :
    ∀ db, ∀ r ∈ rows, hasHash (insertRows db rows).1 r.hash = true := by
  induction rows with
  | nil =>
    intro db r hr
    simp at hr
  | cons a rest ih =>
    intro db r hr
    rcases List.mem_cons.mp hr with hq | hr'
    · subst hq
      have hstep : hasHash (insertRow db r).1 r.hash = true := by
        by_cases h : hasHash db r.hash
        · have hi : insertRow db r = (db, 0) := by simp [insertRow, h]
          rw [hi]
          exact h
        · have hi : insertRow db r = (db ++ [r], 1) := by simp [insertRow, h]
          rw [hi]
          simp [hasHash_append, hasHash]
      have := hasHash_mono rest (insertRow db r).1 r.hash hstep
      simpa [insertRows] using this
    · have := ih (insertRow db a).1 r hr'
      simpa [insertRows] using this

/-- A batch all of whose hashes already exist leaves the table unchanged
and reports zero newly inserted rows. -/
theorem insertRows_all_present (rows : List Row) :
    ∀ db, (∀ r ∈ rows, hasHash db r.hash = true) →
      insertRows db rows = (db, 0) := by
  induction rows with
  | nil => intro db _; rfl
  | cons a rest ih =>
    intro db hall
    have ha := hall a (List.mem_cons_self a rest)
    have hstep : insertRow db a = (db, 0) := by simp [insertRow, ha]
    have hrest := ih db (fun r hr => hall r (List.mem_cons_of_mem a hr))
    simp [insertRows, hstep, hrest]

/-- C4: submitting the same batch to the dedup gate twice leaves the
persisted row set equal to a single submission and the second submission
reports zero newly-inserted rows; existing rows are only ever appended to
(never updated), and a row whose hash already exists is skipped. -/
theorem dedup_insert_idempotent (db rows : List Row) :
    insertRows (insertRows db rows).1 rows = ((insertRows db rows).1, 0)
    ∧ (∃ tail, (insertRows db rows).1 = db ++ tail)
    ∧ (∀ r, hasHash db r.hash = true → insertRow db r = (db, 0)) := by
  refine ⟨?_, insertRows_append rows db, ?_⟩
  · exact insertRows_all_present rows _ (fun r hr => insertRows_hasHash_all rows db r hr)
  · intro r hr
    simp [insertRow, hr]

/-- Witness for C4 at concrete rows: the skip branch at an existing hash. -/
theorem dedup_insert_idempotent_witness :
    insertRow [row0] row0 = ([row0], 0) :=
  (dedup_insert_idempotent [row0] []).2.2 row0 (by decide)

/-! ### Termination heuristic (C1) -/

/-- On a successful response, one iteration ends in `stepSuccessState`. -/
theorem stepFetch_success (env : SdkEnv) (feed : Nat → FetchResult)
    (s : FetchState) (orders : List SeaportOrder) (next : Option String)
    (qs : List QueuedOrder) (vals : List Row)
    (hfeed : feed s.reqCount = FetchResult.success orders next)
    (hproc : processOrders env orders = Except.ok (qs, vals)) :
    stepFetch env feed s = Except.ok (stepSuccessState s orders next qs vals) := by
  unfold stepFetch
  rw [hfeed]
  simp [hproc]

/-- The enqueue step never changes `done`. -/
theorem stepSuccessState_done (s : FetchState) (orders : List SeaportOrder)
    (next : Option String) (qs : List QueuedOrder) (vals : List Row) :
    (stepSuccessState s orders next qs vals).done =
      (if vals.isEmpty then s.done
       else if (insertRows s.db vals).2 = 0 then true else s.done) := by
  unfold stepSuccessState
  by_cases hq : qs.isEmpty <;> by_cases hv : vals.isEmpty <;> simp [hq, hv]

/-- Once `done` is set, the loop exits at once: no further page request. -/
theorem runFetch_done (env : SdkEnv) (feed : Nat → FetchResult)
    (maxOrders : Option Nat) (fuel : Nat) (s : FetchState)
    (hdone : s.done = true) :
    runFetch env feed maxOrders fuel s = Except.ok s := by
  cases fuel with
  | zero => rfl
  | succ n =>
    unfold runFetch
    simp [loopGuard, hdone]

/-- C1: if a page produced a non-empty batch and the bulk insert reports
zero newly-inserted rows, the iteration sets `done` — and a `done` state
fetches no further pages; an empty page leaves `done` untouched (the
heuristic is gated on `values.length`). -/
theorem fetchOrders_termination_heuristic (env : SdkEnv)
    (feed : Nat → FetchResult) (s : FetchState) (maxOrders : Option Nat)
    (fuel : Nat) :
    (∀ orders next qs vals,
      feed s.reqCount = FetchResult.success orders next →
      processOrders env orders = Except.ok (qs, vals) →
      vals ≠ [] →
      (insertRows s.db vals).2 = 0 →
      ∃ s', stepFetch env feed s = Except.ok s' ∧ s'.done = true)
    ∧ (s.done = true → runFetch env feed maxOrders fuel s = Except.ok s)
    ∧ (∀ next, feed s.reqCount = FetchResult.success [] next →
      ∃ s', stepFetch env feed s = Except.ok s' ∧ s'.done = s.done) := by
  refine ⟨?_, runFetch_done env feed maxOrders fuel s, ?_⟩
  · intro orders next qs vals hfeed hproc hvne hzero
    refine ⟨stepSuccessState s orders next qs vals,
      stepFetch_success env feed s orders next qs vals hfeed hproc, ?_⟩
    have hie : vals.isEmpty = false := by
      cases vals with
      | nil => exact absurd rfl hvne
      | cons a t => rfl
    rw [stepSuccessState_done, hie]
    simp [hzero]
  · intro next hfeed
    refine ⟨stepSuccessState s [] next [] [],
      stepFetch_success env feed s [] next [] [] hfeed rfl, ?_⟩
    rw [stepSuccessState_done]
    simp

/-- A feed whose every page is the already-persisted `record0`. -/
def feedDup : Nat → FetchResult :=
  fun _ => FetchResult.success [record0] none

/-- A feed whose every page is empty. -/
def feedEmptyPage : Nat → FetchResult :=
  fun _ => FetchResult.success [] (some "c2")

/-- Witness for C1: a page whose single row already exists sets `done`;
a `done` state stops the loop; an empty page leaves `done` false. -/
theorem fetchOrders_termination_heuristic_witness :
    (∃ s', stepFetch envNoMatch feedDup (initFetchState [row0]) = Except.ok s'
      ∧ s'.done = true)
    ∧ runFetch envNoMatch feedDup none 5 { initFetchState [row0] with done := true }
        = Except.ok { initFetchState [row0] with done := true }
    ∧ (∃ s', stepFetch envNoMatch feedEmptyPage (initFetchState []) = Except.ok s'
      ∧ s'.done = (initFetchState []).done) := by
  refine ⟨?_, ?_, ?_⟩
  · exact (fetchOrders_termination_heuristic envNoMatch feedDup
      (initFetchState [row0]) none 5).1 [record0] none [] [row0] rfl rfl
      (by decide) (by decide)
  · exact (fetchOrders_termination_heuristic envNoMatch feedDup
      { initFetchState [row0] with done := true } none 5).2.1 rfl
  · exact (fetchOrders_termination_heuristic envNoMatch feedEmptyPage
      (initFetchState []) none 5).2.2 (some "c2") rfl

/-! ### Rate-limit retry policy (C2) -/

/-- Under permanent rate limiting with an established cursor, the loop
retries forever: `fuel` iterations issue `fuel` requests with `fuel`
five-second delays, never propagating and never changing the cursor. -/
theorem runFetch_rateLimited_forever (env : SdkEnv) (feed : Nat → FetchResult)
    (hfeed : ∀ k, feed k = FetchResult.rateLimited) :
    ∀ (fuel : Nat) (s : FetchState) (c : String),
      s.cursor = some c → s.done = false →
      runFetch env feed none fuel s =
        Except.ok { s with reqCount := s.reqCount + fuel,
                           delays := s.delays ++ List.replicate fuel 5000 } := by
  intro fuel
  induction fuel with
  | zero =>
    intro s c hc hd
    simp [runFetch]
  | succ n ih =>
    intro s c hc hd
    have hguard : loopGuard none s = true := by simp [loopGuard, hd]
    have hstep : stepFetch env feed s =
        Except.ok { s with reqCount := s.reqCount + 1,
                           delays := s.delays ++ [5000] } := by
      unfold stepFetch
      rw [hfeed s.reqCount]
      simp [hc]
    unfold runFetch
    simp only [hguard, if_true, hstep]
    rw [ih { s with reqCount := s.reqCount + 1, delays := s.delays ++ [5000] } c hc hd]
    obtain ⟨cur, tot, dn, rq, db, enq, dl⟩ := s
    simp [List.replicate_succ, List.append_assoc]
    omega

/-- C2: a 429 is retried iff a cursor is established — with a cursor the
iteration waits 5000 ms and reissues the same unchanged cursor (and with a
permanently rate-limited feed it retries with no cap); a 429 without a
cursor, and any non-429 failure, propagates immediately. -/
theorem fetchOrders_rate_limit_retry (env : SdkEnv) (feed : Nat → FetchResult)
    (s : FetchState) :
    (∀ c, feed s.reqCount = FetchResult.rateLimited → s.cursor = some c →
      stepFetch env feed s =
        Except.ok { s with reqCount := s.reqCount + 1,
                           delays := s.delays ++ [5000] })
    ∧ (feed s.reqCount = FetchResult.rateLimited → s.cursor = none →
      stepFetch env feed s = Except.error "429")
    ∧ (∀ e, feed s.reqCount = FetchResult.failure e →
      stepFetch env feed s = Except.error e)
    ∧ (∀ c fuel, (∀ k, feed k = FetchResult.rateLimited) → s.cursor = some c →
      s.done = false →
      runFetch env feed none fuel s =
        Except.ok { s with reqCount := s.reqCount + fuel,
                           delays := s.delays ++ List.replicate fuel 5000 }) := by
  refine ⟨?_, ?_, ?_, ?_⟩
  · intro c hfeed hc
    unfold stepFetch
    rw [hfeed]
    simp [hc]
  · intro hfeed hc
    unfold stepFetch
    rw [hfeed]
    simp [hc]
  · intro e hfeed
    unfold stepFetch
    rw [hfeed]
  · intro c fuel hfeed hc hd
    exact runFetch_rateLimited_forever env feed hfeed fuel s c hc hd

/-- A permanently rate-limited feed. -/
def feed429 : Nat → FetchResult := fun _ => FetchResult.rateLimited

/-- A feed failing with a non-429 error. -/
def feedFail : Nat → FetchResult := fun _ => FetchResult.failure "ECONNRESET"

/-- A fetch state with an established cursor. -/
def stateWithCursor : FetchState :=
  { initFetchState [] with cursor := some "cur1" }

/-- Witness for C2: retry with cursor, propagation without cursor, non-429
propagation, and three uncapped retries, at concrete inputs. -/
theorem fetchOrders_rate_limit_retry_witness :
    stepFetch envNoMatch feed429 stateWithCursor =
      Except.ok { stateWithCursor with reqCount := 1, delays := [5000] }
    ∧ stepFetch envNoMatch feed429 (initFetchState []) = Except.error "429"
    ∧ stepFetch envNoMatch feedFail (initFetchState []) = Except.error "ECONNRESET"
    ∧ runFetch envNoMatch feed429 none 3 stateWithCursor =
      Except.ok { stateWithCursor with reqCount := 3,
                                       delays := [5000, 5000, 5000] } := by
  refine ⟨?_, ?_, ?_, ?_⟩
  · exact (fetchOrders_rate_limit_retry envNoMatch feed429 stateWithCursor).1
      "cur1" rfl rfl
  · exact (fetchOrders_rate_limit_retry envNoMatch feed429 (initFetchState [])).2.1
      rfl rfl
  · exact (fetchOrders_rate_limit_retry envNoMatch feedFail (initFetchState [])).2.2.1
      "ECONNRESET" rfl
  · exact (fetchOrders_rate_limit_retry envNoMatch feed429 stateWithCursor).2.2.2
      "cur1" 3 (fun _ => rfl) rfl rfl

/-! ### Parse resilience (C6) -/

/-- C6: a page with one well-formed record (parses, with contract info)
and one record with an unrecognized protocol address (non-empty offer list)
yields exactly one queued parsed order and exactly two rows, the second
row's target falling back to the first offer item's token. -/
theorem parse_resilience_one_good_one_unknown (env : SdkEnv)
    (r1 r2 : SeaportOrder) (p : ParsedOrder) (info : OrderInfo)
    (h1 : parseSeaportOrder env r1 = some p)
    (h2 : p.order.info = some info)
    (h3 : toLowerCase info.contract ≠ "")
    (h4 : env.v14Address ≠ some r2.protocol_address)
    (h5 : env.v15Address ≠ some r2.protocol_address)
    (h6 : r2.protocol_data.parameters.offer ≠ []) :
    ∃ q row1 row2, processOrders env [r1, r2] = Except.ok ([q], [row1, row2])
      ∧ row2.target = toLowerCase (r2.protocol_data.parameters.offer.head h6).token := by
  obtain ⟨t, rest, hoff⟩ : ∃ t rest, r2.protocol_data.parameters.offer = t :: rest := by
    cases hoe : r2.protocol_data.parameters.offer with
    | nil => exact absurd hoe h6
    | cons a l => exact ⟨a, l, rfl⟩
  have hp2 : parseSeaportOrder env r2 = none := parseSeaportOrder_noMatch env r2 h4 h5
  have hh1 : handleOrder env r1 = Except.ok
      (some { kind := p.kind, data := p.order.params },
       { hash := toLowerCase r1.order_hash, target := toLowerCase info.contract,
         maker := toLowerCase r1.maker_address, created_at := r1.created_date,
         data := r1.protocol_data, source := "opensea" }) := by
    simp [handleOrder, rowTarget, queuedOrderOf, h1, h2, h3]
  have hh2 : handleOrder env r2 = Except.ok
      (none,
       { hash := toLowerCase r2.order_hash, target := toLowerCase t.token,
         maker := toLowerCase r2.maker_address, created_at := r2.created_date,
         data := r2.protocol_data, source := "opensea" }) := by
    simp [handleOrder, rowTarget, queuedOrderOf, hp2, fallbackOfferToken, hoff,
      Except.map]
  refine ⟨{ kind := p.kind, data := p.order.params },
    { hash := toLowerCase r1.order_hash, target := toLowerCase info.contract,
      maker := toLowerCase r1.maker_address, created_at := r1.created_date,
      data := r1.protocol_data, source := "opensea" },
    { hash := toLowerCase r2.order_hash, target := toLowerCase t.token,
      maker := toLowerCase r2.maker_address, created_at := r2.created_date,
      data := r2.protocol_data, source := "opensea" }, ?_, ?_⟩
  · simp [processOrders, hh1, hh2]
  · simp [hoff]

/-- Witness for C6 at concrete records: `record0` parses under `envOk15`,
`record1`'s protocol address is unrecognized. -/
theorem parse_resilience_one_good_one_unknown_witness :
    ∃ q row1 row2,
      processOrders envOk15 [record0, record1] = Except.ok ([q], [row1, row2])
      ∧ row2.target = toLowerCase
          (record1.protocol_data.parameters.offer.head (by decide)).token := by
  exact parse_resilience_one_good_one_unknown envOk15 record0 record1
    { kind := ProtocolKind.seaportV15,
      order := { params := buildOrderComponent record0,
                 info := some { contract := "0xCONTRACT" } } }
    { contract := "0xCONTRACT" } rfl rfl (by decide) (by decide) (by decide)
    (by decide)

/-! ### Realtime worker: lock release (C7) and cursor round-trip (C8) -/

/-- The realtime job processor never lets an exception escape: the catch
swallows a throwing fetch, so the processor always completes. -/
theorem realtimeJobProcessor_completes (fetch : String → FetchOutcome)
    (cache : Option String) : (realtimeJobProcessor fetch cache).2 = true := by
  cases h : fetch (startToken cache) with
  | ok t =>
    by_cases ht : t = "" <;> simp [realtimeJobProcessor, h, ht]
  | throws e => simp [realtimeJobProcessor, h]

/-- C7: every realtime scheduled run — including one whose inner fetch
throws — completes successfully (the exception is caught, not re-thrown)
and releases the `coinbase-sync-lock` coordination lock exactly once. -/
theorem realtime_lock_release (fetch : String → FetchOutcome)
    (cache : Option String) :
    (realtimeJobProcessor fetch cache).2 = true
    ∧ (runRealtimeWorkerJob fetch cache).2 =
        [WorkerEvent.releasedLock "coinbase-sync-lock" false]
    ∧ (∀ e, fetch (startToken cache) = FetchOutcome.throws e →
        (runRealtimeWorkerJob fetch cache).2 =
          [WorkerEvent.releasedLock "coinbase-sync-lock" false]) := by
  have hok := realtimeJobProcessor_completes fetch cache
  refine ⟨hok, ?_, fun e _ => ?_⟩ <;> simp [runRealtimeWorkerJob, hok]

/-- Witness for C7: a run whose fetch throws still releases the lock once. -/
theorem realtime_lock_release_witness :
    (runRealtimeWorkerJob (fun _ => FetchOutcome.throws "boom") (some "tok")).2 =
      [WorkerEvent.releasedLock "coinbase-sync-lock" false] :=
  (realtime_lock_release (fun _ => FetchOutcome.throws "boom") (some "tok")).2.2
    "boom" rfl

/-- C8: a run obtaining a non-empty new cursor persists it (overwriting the
prior value) and the next run reads exactly that value as its starting
cursor; a run obtaining an empty cursor, or throwing, leaves the persisted
cursor unchanged. -/
theorem realtime_cursor_round_trip (cache : Option String) :
    (∀ fetch t, t ≠ "" → fetch (startToken cache) = FetchOutcome.ok t →
      (runRealtimeWorkerJob fetch cache).1 = some t
      ∧ startToken (runRealtimeWorkerJob fetch cache).1 = t)
    ∧ (∀ fetch e, fetch (startToken cache) = FetchOutcome.throws e →
      (runRealtimeWorkerJob fetch cache).1 = cache)
    ∧ (∀ fetch, fetch (startToken cache) = FetchOutcome.ok "" →
      (runRealtimeWorkerJob fetch cache).1 = cache) := by
  refine ⟨?_, ?_, ?_⟩
  · intro fetch t ht hf
    have h1 : (runRealtimeWorkerJob fetch cache).1 = some t := by
      have hok := realtimeJobProcessor_completes fetch cache
      simp [runRealtimeWorkerJob, hok, realtimeJobProcessor, hf, ht]
    exact ⟨h1, by simp [h1, startToken]⟩
  · intro fetch e hf
    have hok := realtimeJobProcessor_completes fetch cache
    simp [runRealtimeWorkerJob, hok, realtimeJobProcessor, hf]
  · intro fetch hf
    have hok := realtimeJobProcessor_completes fetch cache
    simp [runRealtimeWorkerJob, hok, realtimeJobProcessor, hf]

/-- Witness for C8: persisting `"abc123"`, then reading it back; a throwing
run and an empty-cursor run leave the cache unchanged. -/
theorem realtime_cursor_round_trip_witness :
    ((runRealtimeWorkerJob (fun _ => FetchOutcome.ok "abc123") none).1 = some "abc123"
      ∧ startToken (runRealtimeWorkerJob (fun _ => FetchOutcome.ok "abc123") none).1
          = "abc123")
    ∧ (runRealtimeWorkerJob (fun _ => FetchOutcome.throws "err") (some "old")).1
        = some "old"
    ∧ (runRealtimeWorkerJob (fun _ => FetchOutcome.ok "") (some "old")).1
        = some "old" := by
  refine ⟨?_, ?_, ?_⟩
  · exact (realtime_cursor_round_trip none).1 (fun _ => FetchOutcome.ok "abc123")
      "abc123" (by decide) rfl
  · exact (realtime_cursor_round_trip (some "old")).2.1
      (fun _ => FetchOutcome.throws "err") "err" rfl
  · exact (realtime_cursor_round_trip (some "old")).2.2
      (fun _ => FetchOutcome.ok "") rfl

/-! ### Collection discovery refresher (C9) -/

/-- Each iteration appends at most one page of collections. -/
theorem fetchRankedLoop_length (rank : Nat → RankPage)
    (hb : ∀ i, (rank i).collections.length ≤ 20) :
    ∀ (n i : Nat) (acc : List Collection),
      (fetchRankedLoop rank n i acc).2.length ≤ acc.length + n * 20 := by
  intro n
  induction n with
  | zero =>
    intro i acc
    simp [fetchRankedLoop]
  | succ m ih =>
    intro i acc
    unfold fetchRankedLoop
    by_cases h : (rank i).collections.length < 20
    · simp only [h, if_true]
      have := hb i
      simp [List.length_append]
      omega
    · simp only [h, if_false]
      have h2 := ih (i + 1) (acc ++ (rank i).collections)
      have := hb i
      simp [List.length_append] at h2
      omega

/-- The loop issues at most `n` page requests. -/
theorem fetchRankedLoop_req_bound (rank : Nat → RankPage) :
    ∀ (n i : Nat) (acc : List Collection),
      (fetchRankedLoop rank n i acc).1 ≤ i + n := by
  intro n
  induction n with
  | zero =>
    intro i acc
    simp [fetchRankedLoop]
  | succ m ih =>
    intro i acc
    unfold fetchRankedLoop
    by_cases h : (rank i).collections.length < 20
    · simp only [h, if_true]
      omega
    · simp only [h, if_false]
      have := ih (i + 1) (acc ++ (rank i).collections)
      omega

/-- A page shorter than the page size stops the pagination: no page after
it is requested. -/
theorem fetchRankedLoop_early_stop (rank : Nat → RankPage) (j : Nat)
    (hshort : (rank j).collections.length < 20) :
    ∀ (n i : Nat) (acc : List Collection), i ≤ j →
      (fetchRankedLoop rank n i acc).1 ≤ j + 1 := by
  intro n
  induction n with
  | zero =>
    intro i acc hij
    simp [fetchRankedLoop]
    omega
  | succ m ih =>
    intro i acc hij
    unfold fetchRankedLoop
    by_cases h : (rank i).collections.length < 20
    · simp only [h, if_true]
      omega
    · simp only [h, if_false]
      have hij' : i + 1 ≤ j := by
        rcases Nat.lt_or_ge i j with hlt | hge
        · omega
        · have : i = j := Nat.le_antisymm hij hge
          subst this
          exact absurd hshort h
      exact ih (i + 1) _ hij'

/-- C9: the refresher fetches at most `MAX_FETCH_OFFERS_COLLECTIONS`
collections (pages of at most the page size 20), requests at most 50
pages, stops paginating as soon as a page returns fewer than 20, and a
per-collection sampling failure is skipped without aborting the remaining
collections. -/
theorem refresh_collections_bounds (rank : Nat → RankPage)
    (sample : Collection → Except String (Option String)) :
    ((∀ i, (rank i).collections.length ≤ 20) →
      (fetchRankedCollections rank).2.length ≤ MAX_FETCH_OFFERS_COLLECTIONS)
    ∧ (fetchRankedCollections rank).1 ≤ 50
    ∧ (∀ j, (rank j).collections.length < 20 →
      (fetchRankedCollections rank).1 ≤ j + 1)
    ∧ (∀ cs1 cs2 c e, sample c = Except.error e →
      sampleProbes sample (cs1 ++ c :: cs2) = sampleProbes sample (cs1 ++ cs2)) := by
  refine ⟨?_, ?_, ?_, ?_⟩
  · intro hb
    have := fetchRankedLoop_length rank hb ((MAX_FETCH_OFFERS_COLLECTIONS + 20 - 1) / 20) 0 []
    simpa [fetchRankedCollections, MAX_FETCH_OFFERS_COLLECTIONS] using this
  · have := fetchRankedLoop_req_bound rank ((MAX_FETCH_OFFERS_COLLECTIONS + 20 - 1) / 20) 0 []
    simpa [fetchRankedCollections, MAX_FETCH_OFFERS_COLLECTIONS] using this
  · intro j hshort
    have := fetchRankedLoop_early_stop rank j hshort
      ((MAX_FETCH_OFFERS_COLLECTIONS + 20 - 1) / 20) 0 [] (Nat.zero_le j)
    simpa [fetchRankedCollections] using this
  · intro cs1 cs2 c e hs
    simp [sampleProbes, List.foldl_append, hs]

/-- An always-empty ranking source. -/
def rankEmpty : Nat → RankPage := fun _ => { collections := [], continuation := none }

/-- A concrete collection. -/
def col0 : Collection := { id := "azuki", primaryContract := "0xa" }

/-- A second concrete collection whose sampling succeeds. -/
def col1 : Collection := { id := "doodles", primaryContract := "0xd" }

/-- A sampler failing exactly on `col0`. -/
def sampleFailCol0 : Collection → Except String (Option String) :=
  fun c => if c.id = "azuki" then Except.error "timeout" else Except.ok (some "7")

/-- Witness for C9: the bounds at an always-empty ranking source, and a
failing collection being skipped without aborting its successor. -/
theorem refresh_collections_bounds_witness :
    (fetchRankedCollections rankEmpty).2.length ≤ MAX_FETCH_OFFERS_COLLECTIONS
    ∧ (fetchRankedCollections rankEmpty).1 ≤ 0 + 1
    ∧ sampleProbes sampleFailCol0 ([] ++ col0 :: [col1]) =
        sampleProbes sampleFailCol0 ([] ++ [col1]) := by
  refine ⟨?_, ?_, ?_⟩
  · exact (refresh_collections_bounds rankEmpty sampleFailCol0).1
      (fun i => by simp [rankEmpty])
  · exact (refresh_collections_bounds rankEmpty sampleFailCol0).2.2.1 0
      (by simp [rankEmpty])
  · exact (refresh_collections_bounds rankEmpty sampleFailCol0).2.2.2
      [] [col1] col0 "timeout" (by simp [sampleFailCol0, col0])

/-! ### Unguarded offer[0] fallback (C10) -/

/-- A record with no usable parsed contract and an empty offer list makes
the handler throw (the unguarded `offer[0].token` access). -/
theorem handleOrder_error_of_empty_offer (env : SdkEnv) (o : SeaportOrder)
    (hparse : parseSeaportOrder env o = none ∨
      ∃ p, parseSeaportOrder env o = some p ∧ p.order.info = none)
    (hoffer : o.protocol_data.parameters.offer = []) :
    handleOrder env o = Except.error "TypeError: cannot read token of undefined" := by
  have ht : rowTarget env o =
      Except.error "TypeError: cannot read token of undefined" := by
    rcases hparse with h | ⟨p, hp, hi⟩
    · simp [rowTarget, h, fallbackOfferToken, hoffer, Except.map]
    · simp [rowTarget, hp, hi, fallbackOfferToken, hoffer, Except.map]
  simp [handleOrder, ht]

/-- A single throwing handler rejects the whole page's `Promise.all`. -/
theorem processOrders_error_of_mem (env : SdkEnv) :
    ∀ (orders : List SeaportOrder) (o : SeaportOrder), o ∈ orders →
      (∃ e, handleOrder env o = Except.error e) →
      ∃ e, processOrders env orders = Except.error e := by
  intro orders
  induction orders with
  | nil =>
    intro o ho
    simp at ho
  | cons a rest ih =>
    intro o ho hhe
    cases hha : handleOrder env a with
    | error e2 => exact ⟨e2, by simp [processOrders, hha]⟩
    | ok qr =>
      rcases List.mem_cons.mp ho with hq | ho'
      · obtain ⟨e, he⟩ := hhe
        rw [hq] at he
        rw [he] at hha
        cases hha
      · obtain ⟨e3, he3⟩ := ih o ho' hhe
        exact ⟨e3, by simp [processOrders, hha, he3]⟩

/-- C10: a record with an absent parse (or a parse with no contract info)
and an empty offer list makes its handler throw; the whole page's fan-out
rejects, and the fetch iteration — and therefore the run — aborts with the
exception instead of persisting any rows. -/
theorem empty_offer_aborts_page (env : SdkEnv) (feed : Nat → FetchResult)
    (s : FetchState) (maxOrders : Option Nat) (fuel : Nat)
    (orders : List SeaportOrder) (next : Option String) (o : SeaportOrder)
    (hmem : o ∈ orders)
    (hparse : parseSeaportOrder env o = none ∨
      ∃ p, parseSeaportOrder env o = some p ∧ p.order.info = none)
    (hoffer : o.protocol_data.parameters.offer = []) :
    (∃ e, handleOrder env o = Except.error e)
    ∧ (∃ e, processOrders env orders = Except.error e)
    ∧ (feed s.reqCount = FetchResult.success orders next →
      ∃ e, stepFetch env feed s = Except.error e)
    ∧ (feed s.reqCount = FetchResult.success orders next →
      loopGuard maxOrders s = true →
      ∃ e, runFetch env feed maxOrders (fuel + 1) s = Except.error e) := by
  have h1 := handleOrder_error_of_empty_offer env o hparse hoffer
  obtain ⟨e2, he2⟩ := processOrders_error_of_mem env orders o hmem ⟨_, h1⟩
  have hstepErr : feed s.reqCount = FetchResult.success orders next →
      stepFetch env feed s = Except.error e2 := by
    intro hfeed
    unfold stepFetch
    rw [hfeed]
    simp [he2]
  refine ⟨⟨_, h1⟩, ⟨e2, he2⟩, fun hfeed => ⟨e2, hstepErr hfeed⟩, ?_⟩
  intro hfeed hguard
  refine ⟨e2, ?_⟩
  unfold runFetch
  simp [hguard, hstepErr hfeed]

/-- A feed serving a single page holding only `recordEmptyOffer`. -/
def feedEmptyOfferPage : Nat → FetchResult :=
  fun _ => FetchResult.success [recordEmptyOffer] none

/-- Witness for C10 at the concrete record with an empty offer list. -/
theorem empty_offer_aborts_page_witness :
    (∃ e, handleOrder envNoMatch recordEmptyOffer = Except.error e)
    ∧ (∃ e, processOrders envNoMatch [recordEmptyOffer] = Except.error e)
    ∧ (∃ e, stepFetch envNoMatch feedEmptyOfferPage (initFetchState [])
        = Except.error e)
    ∧ (∃ e, runFetch envNoMatch feedEmptyOfferPage none 4 (initFetchState [])
        = Except.error e) := by
  have h := empty_offer_aborts_page envNoMatch feedEmptyOfferPage
    (initFetchState []) none 3 [recordEmptyOffer] none recordEmptyOffer
    (by simp) (Or.inl rfl) rfl
  exact ⟨h.1, h.2.1, h.2.2.1 rfl, h.2.2.2 rfl rfl⟩

end Relayer
